import Mathlib

/-! # flannel UDP backend: the proxy control interface (backend/udp/proxy.h)

A shallow embedding of the C header `backend/udp/proxy.h`: the three command
codes, the `command` record exchanged on the control channel and the
prototype of `run_proxy`.  The header leaves the widths of `int`, `short`
and `size_t` to the target's data model, so sizes are read through a `DataModel`
value; `linux_lp64` is the data model of the 64-bit Linux targets.

The routing table, the control channel decoder and the forwarding loop behind
`run_proxy` are defined in `proxy.c`; they are modelled from the
specification of the proxy, and each such definition says so.
-/

namespace Proxy

/-! ## Scalar types of the header -/

/-- The C types that occur in `proxy.h`. -/
inductive CType where
  | void
  | int
  | short
  | in_addr_t
  | size_t
  deriving DecidableEq, Repr

/-- Byte sizes the target gives to the scalar types of the header, and its
byte order. -/
structure DataModel where
  sizeof_int : Nat
  sizeof_short : Nat
  sizeof_in_addr_t : Nat
  sizeof_size_t : Nat
  big_endian : Bool
  deriving DecidableEq, Repr

/-- The data model of Linux on little-endian 64-bit targets (LP64: amd64,
arm64). -/
def linux_lp64 : DataModel :=
  { sizeof_int := 4, sizeof_short := 2, sizeof_in_addr_t := 4, sizeof_size_t := 8,
    big_endian := false }

/-- Size in bytes (`sizeof`) of a scalar type; `void` has no size. -/
def CType.sizeof (dm : DataModel) : CType → Nat
  | .void => 0
  | .int => dm.sizeof_int
  | .short => dm.sizeof_short
  | .in_addr_t => dm.sizeof_in_addr_t
  | .size_t => dm.sizeof_size_t

/-- Natural alignment: a scalar is aligned to its own size. -/
def CType.alignof (dm : DataModel) (t : CType) : Nat :=
  t.sizeof dm

/-- Width of a scalar type in bits. -/
def CType.bits (dm : DataModel) (t : CType) : Nat :=
  8 * t.sizeof dm

/-- Signedness: `int` and `short` are signed, `in_addr_t` (POSIX: `uint32_t`)
and `size_t` are unsigned. -/
def CType.is_signed : CType → Bool
  | .int => true
  | .short => true
  | _ => false

/-- The values a C expression of the given type can have; `void` carries no
information. -/
def CType.Val : CType → Type
  | .void => Unit
  | .int => Int
  | .short => Int
  | .in_addr_t => Nat
  | .size_t => Nat

/-! ## Command codes (proxy.h, lines 12-14) -/

/-- Command code, `cmdexport const int CMD_SET_ROUTE = 1;`. -/
def CMD_SET_ROUTE : Int := 1

/-- Command code, `cmdexport const int CMD_DEL_ROUTE = 2;`. -/
def CMD_DEL_ROUTE : Int := 2

/-- Command code, `cmdexport const int CMD_STOP      = 3;`. -/
def CMD_STOP : Int := 3

/-- The commands that have a code. -/
inductive CommandKind where
  | SET_ROUTE
  | DEL_ROUTE
  | STOP
  deriving DecidableEq, Repr

/-- The code of a command. -/
def CommandKind.code : CommandKind → Int
  | .SET_ROUTE => CMD_SET_ROUTE
  | .DEL_ROUTE => CMD_DEL_ROUTE
  | .STOP => CMD_STOP

/-- The commands an integer `cmd` value denotes: each command whose code it is. -/
def commands_of_code (c : Int) : List CommandKind :=
  [CommandKind.SET_ROUTE, CommandKind.DEL_ROUTE, CommandKind.STOP].filter
    (fun k => decide (k.code = c))

/-! ## The command record (proxy.h, lines 16-22) -/

/-- One member of a C struct declaration. -/
structure Field where
  type : CType
  name : String
  deriving DecidableEq, Repr

/-- The member list of `struct command`, in declaration order. -/
def command_fields : List Field :=
  [ { type := .int, name := "cmd" },
    { type := .in_addr_t, name := "dest_net" },
    { type := .int, name := "dest_net_len" },
    { type := .in_addr_t, name := "next_hop_ip" },
    { type := .short, name := "next_hop_port" } ]

/-- A value of `struct command`: one component per member.  An `in_addr_t`
member holds an IPv4 address in network byte order; it is carried as the
address it denotes, the 32-bit number whose most significant octet is the
first octet of the dotted quad. -/
structure command where
  cmd : Int
  dest_net : Nat
  dest_net_len : Int
  next_hop_ip : Nat
  next_hop_port : Int
  deriving DecidableEq, Repr

/-- Round `off` up to the next multiple of `a` (`a = 0` leaves it alone). -/
def align_up (off a : Nat) : Nat :=
  if a = 0 then off else (off + a - 1) / a * a

/-- A laid-out member: its name, byte offset and byte size. -/
structure Slot where
  name : String
  offset : Nat
  size : Nat
  deriving DecidableEq, Repr

/-- The slot holds the byte at offset `i`. -/
def Slot.covers (s : Slot) (i : Nat) : Prop :=
  s.offset ≤ i ∧ i < s.offset + s.size

/-- Lay the members out one after the other starting at `off`, each at the
next offset that is a multiple of its alignment. -/
def layout_from (dm : DataModel) : Nat → List Field → List Slot
  | _, [] => []
  | off, f :: fs =>
    let o := align_up off (f.type.alignof dm)
    { name := f.name, offset := o, size := f.type.sizeof dm } ::
      layout_from dm (o + f.type.sizeof dm) fs

/-- The layout of a struct: its members from offset 0. -/
def struct_layout (dm : DataModel) (fs : List Field) : List Slot :=
  layout_from dm 0 fs

/-- First byte after the last member. -/
def struct_end (dm : DataModel) (fs : List Field) : Nat :=
  ((struct_layout dm fs).map (fun s => s.offset + s.size)).foldl max 0

/-- Alignment of a struct: the largest alignment of a member. -/
def struct_alignof (dm : DataModel) (fs : List Field) : Nat :=
  (fs.map (fun f => f.type.alignof dm)).foldl max 1

/-- Size in bytes (`sizeof`) of a struct: its members, padded to a multiple of
its alignment. -/
def struct_sizeof (dm : DataModel) (fs : List Field) : Nat :=
  align_up (struct_end dm fs) (struct_alignof dm fs)

/-- Bytes of `v` in `n` bytes, least significant first (two's complement for a
negative `v`). -/
def le_bytes (n : Nat) (v : Int) : List Nat :=
  (List.range n).map (fun i => ((v / (256 : Int) ^ i) % 256).toNat)

/-- Bytes of a member in memory: an address in network byte order (most
significant octet first), an integer in the byte order of the target. -/
def member_bytes (dm : DataModel) (t : CType) (v : Int) : List Nat :=
  if t = CType.in_addr_t ∨ dm.big_endian = true then (le_bytes (t.sizeof dm) v).reverse
  else le_bytes (t.sizeof dm) v

/-- The numeric value of each member of a command, in declaration order. -/
def command.values (c : command) : List Int :=
  [c.cmd, (c.dest_net : Int), c.dest_net_len, (c.next_hop_ip : Int), c.next_hop_port]

/-- Write the members one after the other into a buffer that holds `sofar`,
each after zero padding up to the next multiple of its alignment. -/
def fill_members (dm : DataModel) : List Nat → List Field → List Int → List Nat
  | sofar, f :: fs, v :: vs =>
    fill_members dm
      (sofar ++ List.replicate (align_up sofar.length (f.type.alignof dm) - sofar.length) 0
        ++ member_bytes dm f.type v) fs vs
  | sofar, _, _ => sofar

/-- The object representation of a command: its members at their offsets and
the tail padding, the `sizeof (command)` bytes that a read into a
`struct command` fills.  C leaves the content of padding bytes open; they are
written as zero. -/
def command.bytes (dm : DataModel) (c : command) : List Nat :=
  let body := fill_members dm [] command_fields c.values
  body ++ List.replicate (struct_sizeof dm command_fields - body.length) 0

/-! ## The port member (proxy.h, line 21) -/

/-- Least value of a 16-bit `short`. -/
def SHRT_MIN : Int := -32768

/-- Greatest value of a 16-bit `short`. -/
def SHRT_MAX : Int := 32767

/-- The value is representable in a 16-bit `short`. -/
def in_short (v : Int) : Prop :=
  SHRT_MIN ≤ v ∧ v ≤ SHRT_MAX

/-- Conversion of an integer to a 16-bit `short`: the value modulo 2^16 in the
range of `short`. -/
def to_short (x : Int) : Int :=
  (x + 32768) % 65536 - 32768

/-- Conversion of an integer to an unsigned 16-bit integer (`uint16_t`,
`in_port_t`): the value modulo 2^16. -/
def to_uint16 (x : Int) : Int :=
  x % 65536

/-- A command carrying port `p` in its `next_hop_port` member: the assignment
`c.next_hop_port = p` converts `p` to `short`. -/
def command.set_port (c : command) (p : Int) : command :=
  { c with next_hop_port := to_short p }

/-! ## The entry point (proxy.h, line 24) -/

/-- A function prototype: result type, name and parameters in order. -/
structure Prototype where
  result : CType
  name : String
  params : List Field
  deriving DecidableEq, Repr

/-- The prototype
`void run_proxy(int tun, int sock, int ctl, in_addr_t tun_ip, size_t tun_mtu, int log_errors);`. -/
def run_proxy_prototype : Prototype :=
  { result := .void,
    name := "run_proxy",
    params :=
      [ { type := .int, name := "tun" },
        { type := .int, name := "sock" },
        { type := .int, name := "ctl" },
        { type := .in_addr_t, name := "tun_ip" },
        { type := .size_t, name := "tun_mtu" },
        { type := .int, name := "log_errors" } ] }

/-! ## Routing table

`proxy.h` declares the control interface only; the routing table, the decoder
of the control channel and the forwarding loop that `run_proxy` runs live in
`proxy.c`.  The definitions from here on follow the specification of that
file.
-/

/-- Modelled from the spec: the next hop of a route (proxy.c is missing), the
UDP endpoint (address + port) a matched route forwards packets to. -/
structure NextHop where
  address : Nat
  port : Nat
  deriving DecidableEq, Repr

/-- Modelled from the spec: the Route record of proxy.c (missing),
`{ destination_network, prefix_length: 0..32, next_hop_address,
next_hop_port: 16-bit unsigned }`. -/
structure Route where
  destination_network : Nat
  prefix_length : Int
  next_hop_address : Nat
  next_hop_port : Nat
  deriving DecidableEq, Repr

/-- Modelled from the spec: the next hop a route forwards to (proxy.c is
missing). -/
def Route.next_hop (r : Route) : NextHop :=
  { address := r.next_hop_address, port := r.next_hop_port }

/-- Modelled from the spec: the routing table of proxy.c (missing), the
installed routes; empty at startup. -/
abbrev RoutingTable := List Route

/-- Modelled from the spec: normalisation of a network address (proxy.c is
missing), masking off the bits beyond the first `len` high-order bits of the
32-bit address. -/
def normalize (addr : Nat) (len : Int) : Nat :=
  addr % 2 ^ 32 / 2 ^ (32 - len).toNat * 2 ^ (32 - len).toNat

/-- Modelled from the spec: key comparison of routes (proxy.c is missing); the
key is `(destination_network, prefix_length)` and bits beyond
`prefix_length` are ignored on comparison. -/
def Route.has_key (r : Route) (net : Nat) (len : Int) : Bool :=
  r.prefix_length == len && normalize r.destination_network len == normalize net len

/-- Modelled from the spec: `insert_or_replace(route)` of the routing table
(proxy.c is missing); installs a route, a route with the same key as an
existing one replaces it, never fails. -/
def insert_or_replace (t : RoutingTable) (r : Route) : RoutingTable :=
  t.filter (fun x => !x.has_key r.destination_network r.prefix_length) ++ [r]

/-- Modelled from the spec: `remove(destination_network, prefix_length)` of the
routing table (proxy.c is missing); removes the exact entry if present, no-op
if absent. -/
def remove (t : RoutingTable) (net : Nat) (len : Int) : RoutingTable :=
  t.filter (fun x => !x.has_key net len)

/-- Modelled from the spec: a route's network/prefix contains an address
(proxy.c is missing) when the address agrees with the network on the first
`prefix_length` bits. -/
def Route.contains (r : Route) (addr : Nat) : Bool :=
  normalize addr r.prefix_length == normalize r.destination_network r.prefix_length

/-- Modelled from the spec: one step of the longest-prefix scan (proxy.c is
missing); the candidate with the greater `prefix_length` wins. -/
def longer (best : Option Route) (r : Route) : Option Route :=
  match best with
  | none => some r
  | some b => if b.prefix_length < r.prefix_length then some r else some b

/-- Modelled from the spec: the best match of a scan over the table (proxy.c
is missing), started from the candidate `best`. -/
def best_match (addr : Nat) : Option Route → RoutingTable → Option Route
  | best, [] => best
  | best, r :: rs =>
    if r.contains addr then best_match addr (longer best r) rs
    else best_match addr best rs

/-- Modelled from the spec: `lookup(destination_address) -> Option<next_hop>`
of the routing table (proxy.c is missing); the next hop of the longest-prefix
match, or no route if none matches. -/
def lookup (t : RoutingTable) (addr : Nat) : Option NextHop :=
  (best_match addr none t).map Route.next_hop

/-- Modelled from the spec: the routes of a table installed under a key
(proxy.c is missing). -/
def routes_for (t : RoutingTable) (net : Nat) (len : Int) : List Route :=
  t.filter (fun x => x.has_key net len)

/-- Modelled from the spec: the uniqueness invariant of the routing table
(proxy.c is missing): no two installed routes have the same key. -/
def distinct_keys (t : RoutingTable) : Prop :=
  t.Pairwise (fun a b => a.has_key b.destination_network b.prefix_length = false)

/-! ## Control channel decoder -/

/-- Modelled from the spec: the typed command the decoder of proxy.c (missing)
hands on, or a protocol error. -/
inductive Decoded where
  | set_route (r : Route)
  | del_route (net : Nat) (len : Int)
  | stop
  | protocol_error
  deriving DecidableEq, Repr

/-- Modelled from the spec: validation and normalisation of a command record by
the control channel decoder (proxy.c is missing).  SET_ROUTE validates
`0 ≤ dest_net_len ≤ 32`, masks `dest_net` and builds the route, the port
member read as a 16-bit unsigned port; DEL_ROUTE normalises `dest_net` the
same way and hands the key to `remove`; STOP signals shutdown; a
`dest_net_len` outside 0..32 in a SET_ROUTE or DEL_ROUTE record, or an
unrecognised `cmd`, is a protocol error, and the record is discarded. -/
def decode (c : command) : Decoded :=
  if c.cmd = CMD_SET_ROUTE then
    if 0 ≤ c.dest_net_len ∧ c.dest_net_len ≤ 32 then
      .set_route
        { destination_network := normalize c.dest_net c.dest_net_len,
          prefix_length := c.dest_net_len,
          next_hop_address := c.next_hop_ip,
          next_hop_port := (to_uint16 c.next_hop_port).toNat }
    else .protocol_error
  else if c.cmd = CMD_DEL_ROUTE then
    if 0 ≤ c.dest_net_len ∧ c.dest_net_len ≤ 32 then
      .del_route (normalize c.dest_net c.dest_net_len) c.dest_net_len
    else .protocol_error
  else if c.cmd = CMD_STOP then .stop
  else .protocol_error

/-- Modelled from the spec: the effect of one command record on the routing
table (proxy.c is missing): SET_ROUTE inserts or replaces, DEL_ROUTE removes,
STOP and protocol errors leave the table alone. -/
def apply_command (t : RoutingTable) (c : command) : RoutingTable :=
  match decode c with
  | .set_route r => insert_or_replace t r
  | .del_route net len => remove t net len
  | .stop => t
  | .protocol_error => t

/-- Modelled from the spec: the table after a sequence of command records
(proxy.c is missing), applied in order. -/
def apply_commands (t : RoutingTable) (cs : List command) : RoutingTable :=
  cs.foldl apply_command t

/-- An IPv4 address from its four octets. -/
def ipv4 (a b c d : Nat) : Nat :=
  a * 2 ^ 24 + b * 2 ^ 16 + c * 2 ^ 8 + d

/-- A SET_ROUTE record for `net/len` with next hop `hop_ip:port`. -/
def set_route_command (net : Nat) (len : Int) (hop_ip : Nat) (port : Int) : command :=
  { cmd := CMD_SET_ROUTE, dest_net := net, dest_net_len := len,
    next_hop_ip := hop_ip, next_hop_port := to_short port }

/-- A DEL_ROUTE record for `net/len`; the next-hop members are not used. -/
def del_route_command (net : Nat) (len : Int) : command :=
  { cmd := CMD_DEL_ROUTE, dest_net := net, dest_net_len := len,
    next_hop_ip := 0, next_hop_port := 0 }

/-! ## Forwarding engine -/

/-- One octet of a packet. -/
abbrev Byte := Fin 256

/-- Modelled from the spec: the Runtime Context of proxy.c (missing), the three
descriptors, the interface address, its MTU and the diagnostic toggle: the
arguments of `run_proxy`. -/
structure Context where
  tun : Int
  sock : Int
  ctl : Int
  tun_ip : Nat
  tun_mtu : Nat
  log_errors : Int
  deriving DecidableEq, Repr

/-- Modelled from the spec: the state of the Forwarding Engine of proxy.c
(missing): the routing table and the shutdown signal. -/
structure State where
  routes : RoutingTable
  exit_flag : Bool
  deriving DecidableEq, Repr

/-- Modelled from the spec: what a read of the control descriptor yields
(proxy.c is missing): a whole command record, a short read of `n` bytes, a
zero-length read (peer closed the channel) or an unrecoverable failure. -/
inductive CtlRead where
  | record (c : command)
  | short_read (n : Nat)
  | closed
  | failed
  deriving DecidableEq, Repr

/-- Modelled from the spec: one readiness event of the loop of proxy.c
(missing) with what the read on the ready descriptor yields: a packet from
the virtual interface, a datagram payload from the UDP socket (`none`: the
read yields nothing), or a control read. -/
inductive Event where
  | tun_readable (pkt : Option (List Byte))
  | udp_readable (payload : Option (List Byte))
  | ctl_readable (r : CtlRead)
  deriving DecidableEq, Repr

/-- Modelled from the spec: the operations the engine of proxy.c (missing)
issues on its descriptors, and the diagnostics it emits. -/
inductive Action where
  | tun_read (fd : Int)
  | udp_send (fd : Int) (hop : NextHop) (payload : List Byte)
  | udp_recv (fd : Int)
  | tun_write (fd : Int) (payload : List Byte)
  | ctl_read (fd : Int)
  | diagnostic
  deriving DecidableEq, Repr

/-- Modelled from the spec: the destination address in the network-layer header
of a packet (proxy.c is missing): octets 16 to 19 of the IPv4 header; a packet
too short to hold them has none. -/
def destination (pkt : List Byte) : Option Nat :=
  match pkt.drop 16 with
  | a :: b :: c :: d :: _ => some (ipv4 a.val b.val c.val d.val)
  | _ => none

/-- Modelled from the spec: the optional diagnostic (proxy.c is missing), gated
by `log_errors_flag`. -/
def diagnose (ctx : Context) : List Action :=
  if ctx.log_errors = 0 then [] else [Action.diagnostic]

/-- Modelled from the spec: the virtual-interface event of the Forwarding
Engine (proxy.c is missing): read one packet, look its destination up, send
the full packet as one UDP datagram to the next hop if matched, drop it if
not. -/
def handle_tun (ctx : Context) (st : State) (pkt : Option (List Byte)) :
    State × List Action :=
  match pkt with
  | none => (st, Action.tun_read ctx.tun :: diagnose ctx)
  | some p =>
    match destination p with
    | none => (st, Action.tun_read ctx.tun :: diagnose ctx)
    | some dst =>
      match lookup st.routes dst with
      | some hop => (st, [Action.tun_read ctx.tun, Action.udp_send ctx.sock hop p])
      | none => (st, Action.tun_read ctx.tun :: diagnose ctx)

/-- Modelled from the spec: the UDP event of the Forwarding Engine (proxy.c is
missing): read one datagram and write its payload verbatim to the virtual
interface, or drop it if it exceeds `interface_mtu`. -/
def handle_udp (ctx : Context) (st : State) (payload : Option (List Byte)) :
    State × List Action :=
  match payload with
  | none => (st, Action.udp_recv ctx.sock :: diagnose ctx)
  | some p =>
    if ctx.tun_mtu < p.length then (st, Action.udp_recv ctx.sock :: diagnose ctx)
    else (st, [Action.udp_recv ctx.sock, Action.tun_write ctx.tun p])

/-- Modelled from the spec: the Control Channel Decoder of proxy.c (missing):
read one command record and mutate the routing table or signal shutdown; a
short read or a protocol error is discarded with an optional diagnostic, a
zero-length read is equivalent to STOP, an unrecoverable failure is fatal. -/
def handle_ctl (ctx : Context) (st : State) (r : CtlRead) : State × List Action :=
  match r with
  | .record c =>
    match decode c with
    | .set_route r =>
      ({ st with routes := insert_or_replace st.routes r }, [Action.ctl_read ctx.ctl])
    | .del_route net len =>
      ({ st with routes := remove st.routes net len }, [Action.ctl_read ctx.ctl])
    | .stop => ({ st with exit_flag := true }, [Action.ctl_read ctx.ctl])
    | .protocol_error => (st, Action.ctl_read ctx.ctl :: diagnose ctx)
  | .short_read _ => (st, Action.ctl_read ctx.ctl :: diagnose ctx)
  | .closed => ({ st with exit_flag := true }, [Action.ctl_read ctx.ctl])
  | .failed => ({ st with exit_flag := true }, Action.ctl_read ctx.ctl :: diagnose ctx)

/-- Modelled from the spec: the handling of exactly one ready event by the
Forwarding Engine (proxy.c is missing). -/
def handle (ctx : Context) (st : State) : Event → State × List Action
  | .tun_readable pkt => handle_tun ctx st pkt
  | .udp_readable payload => handle_udp ctx st payload
  | .ctl_readable r => handle_ctl ctx st r

/-- Modelled from the spec: what a run of the engine leaves (proxy.c is
missing): the final state, the operations issued in order, and whether the
loop was left (`returned`) or is waiting for readiness. -/
structure Run where
  state : State
  trace : List Action
  returned : Bool
  deriving DecidableEq, Repr

/-- Modelled from the spec: the single loop of the Forwarding Engine (proxy.c
is missing): shutdown is observed between iterations; while running, the
loop waits for the next ready event and handles exactly that one. -/
def engine_loop (ctx : Context) : State → List Event → Run
  | st, [] => { state := st, trace := [], returned := st.exit_flag }
  | st, e :: es =>
    if st.exit_flag then { state := st, trace := [], returned := true }
    else
      let r := engine_loop ctx (handle ctx st e).1 es
      { r with trace := (handle ctx st e).2 ++ r.trace }

/-- Modelled from the spec: the body of `run_proxy` (proxy.c is missing): the
engine started on an empty routing table, run over the readiness events that
arrive on its three descriptors. -/
def run_proxy (tun sock ctl : Int) (tun_ip tun_mtu : Nat) (log_errors : Int)
    (events : List Event) : Run :=
  engine_loop
    { tun := tun, sock := sock, ctl := ctl, tun_ip := tun_ip, tun_mtu := tun_mtu,
      log_errors := log_errors }
    { routes := [], exit_flag := false } events

/-- Modelled from the spec: the events that trigger shutdown (proxy.c is
missing): a decoded STOP command or the closure of the control channel. -/
def Event.is_shutdown : Event → Bool
  | .ctl_readable (.record c) => decide (c.cmd = CMD_STOP)
  | .ctl_readable .closed => true
  | _ => false

/-! ## The header: command codes, record and prototype -/

/-- A member occupies `sizeof` bytes in either byte order. -/
theorem member_bytes_length (dm : DataModel) (t : CType) (v : Int) :
    (member_bytes dm t v).length = t.sizeof dm := by
  unfold member_bytes le_bytes
  split <;> simp

/-- C1: the command codes are exactly CMD_SET_ROUTE = 1, CMD_DEL_ROUTE = 2 and
CMD_STOP = 3; they are pairwise distinct, the code of a command determines
the command, and no integer denotes two commands. -/
theorem command_codes_unambiguous :
    (CMD_SET_ROUTE = 1 ∧ CMD_DEL_ROUTE = 2 ∧ CMD_STOP = 3) ∧
    (CMD_SET_ROUTE ≠ CMD_DEL_ROUTE ∧ CMD_SET_ROUTE ≠ CMD_STOP ∧ CMD_DEL_ROUTE ≠ CMD_STOP) ∧
    (∀ k1 k2 : CommandKind, k1.code = k2.code → k1 = k2) ∧
    (∀ c : Int, (commands_of_code c).length ≤ 1) := by
  refine ⟨⟨rfl, rfl, rfl⟩, ⟨by decide, by decide, by decide⟩, ?_, ?_⟩
  · intro k1 k2 h
    cases k1 <;> cases k2 <;> first | rfl | exact absurd h (by decide)
  · intro c
    by_cases h1 : c = 1
    · subst h1; decide
    · by_cases h2 : c = 2
      · subst h2; decide
      · by_cases h3 : c = 3
        · subst h3; decide
        · have e1 : (1 : Int) ≠ c := fun h => h1 h.symm
          have e2 : (2 : Int) ≠ c := fun h => h2 h.symm
          have e3 : (3 : Int) ≠ c := fun h => h3 h.symm
          simp [commands_of_code, List.filter, CommandKind.code, CMD_SET_ROUTE,
            CMD_DEL_ROUTE, CMD_STOP, e1, e2, e3]

/-- C2: on a target with 4-byte int and in_addr_t and 2-byte short, the command
record has exactly five members, in this order and with these types: cmd
(signed, 32 bits), dest_net (unsigned, 32 bits), dest_net_len (signed, 32
bits), next_hop_ip (unsigned, 32 bits), next_hop_port (signed, 16 bits); a
command value has one component per member. -/
theorem command_record_members (dm : DataModel) (hint : dm.sizeof_int = 4)
    (haddr : dm.sizeof_in_addr_t = 4) (hshort : dm.sizeof_short = 2) :
    command_fields.map (fun f => (f.name, f.type, f.type.is_signed, f.type.bits dm)) =
      [ ("cmd", CType.int, true, 32),
        ("dest_net", CType.in_addr_t, false, 32),
        ("dest_net_len", CType.int, true, 32),
        ("next_hop_ip", CType.in_addr_t, false, 32),
        ("next_hop_port", CType.short, true, 16) ] ∧
    command_fields.length = 5 ∧
    ∀ c : command, c.values.length = command_fields.length := by
  refine ⟨?_, rfl, fun c => rfl⟩
  simp [command_fields, CType.is_signed, CType.bits, CType.sizeof, hint, haddr, hshort]

/-- C2 at the data model of 64-bit Linux. -/
theorem command_record_members_witness :
    (linux_lp64.sizeof_int = 4 ∧ linux_lp64.sizeof_in_addr_t = 4 ∧
      linux_lp64.sizeof_short = 2) ∧
    command_fields.map
        (fun f => (f.name, f.type, f.type.is_signed, f.type.bits linux_lp64)) =
      [ ("cmd", CType.int, true, 32),
        ("dest_net", CType.in_addr_t, false, 32),
        ("dest_net_len", CType.int, true, 32),
        ("next_hop_ip", CType.in_addr_t, false, 32),
        ("next_hop_port", CType.short, true, 16) ] :=
  ⟨⟨rfl, rfl, rfl⟩, (command_record_members linux_lp64 rfl rfl rfl).1⟩

/-- C3: run_proxy takes exactly six arguments, in the order tun (the
virtual-interface descriptor), sock (the UDP socket descriptor), ctl (the
control descriptor), tun_ip (the interface address), tun_mtu (the interface
MTU), log_errors (the error-logging flag); its result type is void, so the
values two runs hand back to the caller are equal whatever the runs did. -/
theorem run_proxy_six_arguments_no_result :
    run_proxy_prototype.params.map Field.name =
      ["tun", "sock", "ctl", "tun_ip", "tun_mtu", "log_errors"] ∧
    run_proxy_prototype.params.map Field.type =
      [CType.int, CType.int, CType.int, CType.in_addr_t, CType.size_t, CType.int] ∧
    run_proxy_prototype.params.length = 6 ∧
    run_proxy_prototype.result = CType.void ∧
    ∀ r1 r2 : run_proxy_prototype.result.Val, r1 = r2 := by
  refine ⟨rfl, rfl, rfl, rfl, ?_⟩
  intro r1 r2
  rfl

/-- C9: next_hop_port is a signed 16-bit member, yet it carries every UDP
port: for a port p in 0..65535 exactly one value v of a 16-bit short has
v mod 2^16 = p, it is the value the member gets when p is stored (p itself up
to 32767, p - 65536 above), reading the member back as unsigned 16-bit gives
p, and reading it as a signed number gives a negative value for every port
above 32767. -/
theorem next_hop_port_carries_every_port (p : Int) (h0 : 0 ≤ p) (h1 : p ≤ 65535) :
    (∃! v : Int, in_short v ∧ v % 65536 = p) ∧
    (in_short (to_short p) ∧ to_short p % 65536 = p) ∧
    to_short p = (if p ≤ 32767 then p else p - 65536) ∧
    (∀ c : command, to_uint16 (c.set_port p).next_hop_port = p) ∧
    (32767 < p → ∀ c : command, (c.set_port p).next_hop_port < 0) := by
  have hv : to_short p = (if p ≤ 32767 then p else p - 65536) := by
    unfold to_short
    split <;> omega
  have hr : in_short (to_short p) := by
    unfold in_short SHRT_MIN SHRT_MAX to_short
    omega
  have hm : to_short p % 65536 = p := by
    unfold to_short
    omega
  refine ⟨⟨to_short p, ⟨hr, hm⟩, ?_⟩, ⟨hr, hm⟩, hv, ?_, ?_⟩
  · rintro v ⟨⟨hlo, hhi⟩, hvm⟩
    unfold SHRT_MIN at hlo
    unfold SHRT_MAX at hhi
    unfold to_short
    omega
  · intro c
    show to_short p % 65536 = p
    exact hm
  · intro hp c
    show to_short p < 0
    unfold to_short
    omega

/-- C9 at port 50000, stored as -15536. -/
theorem next_hop_port_carries_every_port_witness :
    to_short 50000 = -15536 ∧
    ∀ c : command, to_uint16 (c.set_port 50000).next_hop_port = 50000 :=
  ⟨by decide,
    (next_hop_port_carries_every_port 50000 (by decide) (by decide)).2.2.2.1⟩

/-- C10: with 4-byte int and in_addr_t, 2-byte short and natural alignment the
members of a command sit at byte offsets 0 (cmd), 4 (dest_net), 8
(dest_net_len), 12 (next_hop_ip) and 16 (next_hop_port); the members end at
byte 18 and the record is padded to 20 bytes, so every command record has the
same length, and no byte belongs to two members. -/
theorem command_record_layout (dm : DataModel) (hint : dm.sizeof_int = 4)
    (haddr : dm.sizeof_in_addr_t = 4) (hshort : dm.sizeof_short = 2) :
    struct_layout dm command_fields =
      [ { name := "cmd", offset := 0, size := 4 },
        { name := "dest_net", offset := 4, size := 4 },
        { name := "dest_net_len", offset := 8, size := 4 },
        { name := "next_hop_ip", offset := 12, size := 4 },
        { name := "next_hop_port", offset := 16, size := 2 } ] ∧
    struct_end dm command_fields = 18 ∧
    struct_sizeof dm command_fields = 20 ∧
    (∀ c : command, (c.bytes dm).length = 20) ∧
    (struct_layout dm command_fields).Pairwise
      (fun a b => ∀ i : Nat, ¬ (a.covers i ∧ b.covers i)) := by
  have hl : struct_layout dm command_fields =
      [ { name := "cmd", offset := 0, size := 4 },
        { name := "dest_net", offset := 4, size := 4 },
        { name := "dest_net_len", offset := 8, size := 4 },
        { name := "next_hop_ip", offset := 12, size := 4 },
        { name := "next_hop_port", offset := 16, size := 2 } ] := by
    simp [struct_layout, command_fields, layout_from, CType.alignof, CType.sizeof, hint,
      haddr, hshort, align_up]
  have hs : struct_sizeof dm command_fields = 20 := by
    simp [struct_sizeof, struct_end, hl]
    simp [struct_alignof, command_fields, CType.alignof, CType.sizeof, hint, haddr,
      hshort, align_up]
  refine ⟨hl, ?_, hs, ?_, ?_⟩
  · simp [struct_end, hl]
  · intro c
    simp [command.bytes, hs]
    simp [fill_members, command_fields, command.values, member_bytes_length,
      CType.alignof, CType.sizeof, hint, haddr, hshort, align_up]
  · rw [hl]
    simp [Slot.covers]
    refine ⟨⟨?_, ?_, ?_, ?_⟩, ⟨?_, ?_, ?_⟩, ⟨?_, ?_⟩, ?_⟩ <;> intros <;> omega

/-- C10 at the data model of 64-bit Linux, for a SET_ROUTE record. -/
theorem command_record_layout_witness :
    (linux_lp64.sizeof_int = 4 ∧ linux_lp64.sizeof_in_addr_t = 4 ∧
      linux_lp64.sizeof_short = 2) ∧
    struct_sizeof linux_lp64 command_fields = 20 ∧
    ((set_route_command (ipv4 10 0 0 0) 8 (ipv4 198 51 100 1) 5000).bytes
      linux_lp64).length = 20 :=
  ⟨⟨rfl, rfl, rfl⟩, (command_record_layout linux_lp64 rfl rfl rfl).2.2.1,
    (command_record_layout linux_lp64 rfl rfl rfl).2.2.2.1 _⟩

/-! ## Routing table: longest-prefix match -/

/-- Masking twice is masking once. -/
theorem normalize_idem (a : Nat) (l : Int) : normalize (normalize a l) l = normalize a l := by
  unfold normalize
  have hpos : 0 < 2 ^ (32 - l).toNat := by positivity
  have hle : a % 2 ^ 32 / 2 ^ (32 - l).toNat * 2 ^ (32 - l).toNat ≤ a % 2 ^ 32 :=
    Nat.div_mul_le_self _ _
  have hlt : a % 2 ^ 32 < 2 ^ 32 := Nat.mod_lt _ (by positivity)
  rw [Nat.mod_eq_of_lt (lt_of_le_of_lt hle hlt), Nat.mul_div_cancel _ hpos]

/-- A key and its normalised form select the same routes. -/
theorem has_key_normalize (r : Route) (net : Nat) (len : Int) :
    r.has_key (normalize net len) len = r.has_key net len := by
  unfold Route.has_key
  rw [normalize_idem]

/-- Having the key of another route is symmetric. -/
theorem has_key_symm (a b : Route)
    (h : a.has_key b.destination_network b.prefix_length = false) :
    b.has_key a.destination_network a.prefix_length = false := by
  unfold Route.has_key at h ⊢
  by_cases hl : a.prefix_length = b.prefix_length
  · rw [hl] at h ⊢
    simp at h ⊢
    exact fun e => h e.symm
  · have hl2 : ¬ b.prefix_length = a.prefix_length := fun e => hl e.symm
    simp [hl2]

/-- Two routes of the same prefix length that contain one address have the same
key. -/
theorem has_key_of_contains (a b : Route) (addr : Nat) (ha : a.contains addr = true)
    (hb : b.contains addr = true) (hl : a.prefix_length = b.prefix_length) :
    a.has_key b.destination_network b.prefix_length = true := by
  unfold Route.contains at ha hb
  unfold Route.has_key
  rw [hl] at ha ⊢
  simp at ha hb ⊢
  rw [← ha, ← hb]

/-- One step of the scan keeps a candidate at least as long as both. -/
theorem longer_spec (best : Option Route) (x : Route) :
    ∃ m, longer best x = some m ∧ (m = x ∨ best = some m) ∧
      x.prefix_length ≤ m.prefix_length ∧
      ∀ b, best = some b → b.prefix_length ≤ m.prefix_length := by
  cases best with
  | none => exact ⟨x, rfl, Or.inl rfl, le_refl _, fun b hb => by cases hb⟩
  | some b0 =>
    by_cases h : b0.prefix_length < x.prefix_length
    · refine ⟨x, by simp [longer, h], Or.inl rfl, le_refl _, ?_⟩
      intro b hb
      cases hb
      exact le_of_lt h
    · refine ⟨b0, by simp [longer, h], Or.inr rfl, le_of_not_lt h, ?_⟩
      intro b hb
      cases hb
      exact le_refl _

/-- The scan finds nothing only when it started with nothing and no route
contains the address. -/
theorem best_match_none (addr : Nat) (t : RoutingTable) :
    ∀ best, best_match addr best t = none →
      best = none ∧ ∀ x ∈ t, x.contains addr = false := by
  induction t with
  | nil =>
    intro best h
    exact ⟨h, fun x hx => by cases hx⟩
  | cons y ys ih =>
    intro best h
    unfold best_match at h
    by_cases hy : y.contains addr = true
    · rw [if_pos hy] at h
      obtain ⟨m, hm, _⟩ := longer_spec best y
      have := (ih _ h).1
      rw [hm] at this
      cases this
    · rw [if_neg hy] at h
      obtain ⟨hb, hall⟩ := ih _ h
      refine ⟨hb, ?_⟩
      intro x hx
      rcases List.mem_cons.mp hx with rfl | hx
      · simpa using hy
      · exact hall x hx

/-- A scan started with nothing over routes that do not contain the address
finds nothing. -/
theorem best_match_no_route (addr : Nat) (t : RoutingTable)
    (h : ∀ x ∈ t, x.contains addr = false) : best_match addr none t = none := by
  induction t with
  | nil => rfl
  | cons y ys ih =>
    unfold best_match
    have hy : y.contains addr = false := h y (List.mem_cons_self _ _)
    simp only [hy, Bool.false_eq_true, if_false]
    exact ih (fun x hx => h x (List.mem_cons_of_mem _ hx))

/-- The scan returns its starting candidate or a route of the table that
contains the address, and nothing that contains the address is longer. -/
theorem best_match_some (addr : Nat) (t : RoutingTable) :
    ∀ best r, best_match addr best t = some r →
      (best = some r ∨ (r ∈ t ∧ r.contains addr = true)) ∧
      (∀ b, best = some b → b.prefix_length ≤ r.prefix_length) ∧
      ∀ x ∈ t, x.contains addr = true → x.prefix_length ≤ r.prefix_length := by
  induction t with
  | nil =>
    intro best r h
    refine ⟨Or.inl h, ?_, fun x hx => by cases hx⟩
    intro b hb
    rw [hb] at h
    cases h
    exact le_refl _
  | cons y ys ih =>
    intro best r h
    unfold best_match at h
    by_cases hy : y.contains addr = true
    · rw [if_pos hy] at h
      obtain ⟨m, hm, hsrc, hym, hbm⟩ := longer_spec best y
      obtain ⟨h1, h2, h3⟩ := ih _ r h
      have hmr : m.prefix_length ≤ r.prefix_length := h2 m hm
      refine ⟨?_, ?_, ?_⟩
      · rcases h1 with h1 | ⟨hmem, hc⟩
        · rw [hm] at h1
          cases h1
          rcases hsrc with rfl | hsrc
          · exact Or.inr ⟨List.mem_cons_self _ _, hy⟩
          · exact Or.inl hsrc
        · exact Or.inr ⟨List.mem_cons_of_mem _ hmem, hc⟩
      · intro b hb
        exact le_trans (hbm b hb) hmr
      · intro x hx hc
        rcases List.mem_cons.mp hx with rfl | hx
        · exact le_trans hym hmr
        · exact h3 x hx hc
    · rw [if_neg hy] at h
      obtain ⟨h1, h2, h3⟩ := ih _ r h
      refine ⟨?_, h2, ?_⟩
      · rcases h1 with h1 | ⟨hmem, hc⟩
        · exact Or.inl h1
        · exact Or.inr ⟨List.mem_cons_of_mem _ hmem, hc⟩
      · intro x hx hc
        rcases List.mem_cons.mp hx with rfl | hx
        · exact absurd hc hy
        · exact h3 x hx hc

/-- Two different routes of a table with distinct keys do not share a key. -/
theorem distinct_keys_ne (t : RoutingTable) (ht : distinct_keys t) (a b : Route)
    (ha : a ∈ t) (hb : b ∈ t) (hne : a ≠ b) :
    a.has_key b.destination_network b.prefix_length = false := by
  unfold distinct_keys at ht
  induction t with
  | nil => cases ha
  | cons y ys ih =>
    rw [List.pairwise_cons] at ht
    rcases List.mem_cons.mp ha with ha1 | ha2
    · rcases List.mem_cons.mp hb with hb1 | hb2
      · exact absurd (ha1.trans hb1.symm) hne
      · rw [ha1]
        exact ht.1 b hb2
    · rcases List.mem_cons.mp hb with hb1 | hb2
      · rw [hb1]
        exact has_key_symm _ _ (ht.1 a ha2)
      · exact ih ht.2 ha2 hb2

/-- Every command keeps the keys of the table distinct. -/
theorem distinct_keys_apply_command (t : RoutingTable) (c : command)
    (ht : distinct_keys t) : distinct_keys (apply_command t c) := by
  unfold apply_command
  cases decode c with
  | set_route r =>
    show distinct_keys (insert_or_replace t r)
    unfold insert_or_replace distinct_keys
    rw [List.pairwise_append]
    refine ⟨List.Pairwise.filter _ ht, List.pairwise_singleton _ _, ?_⟩
    intro a ha b hb
    rw [List.mem_singleton] at hb
    subst hb
    simpa using (List.mem_filter.mp ha).2
  | del_route net len => exact List.Pairwise.filter _ ht
  | stop => exact ht
  | protocol_error => exact ht

/-- Every sequence of commands keeps the keys of the table distinct. -/
theorem distinct_keys_apply_commands (cs : List command) :
    ∀ t, distinct_keys t → distinct_keys (apply_commands t cs) := by
  induction cs with
  | nil => exact fun t ht => ht
  | cons c cs ih =>
    intro t ht
    exact ih _ (distinct_keys_apply_command t c ht)

/-- A route that contains the address and is longer than every other route
containing it is the one lookup resolves to. -/
theorem lookup_of_longest (t : RoutingTable) (addr : Nat) (r : Route) (hmem : r ∈ t)
    (hc : r.contains addr = true)
    (hmax : ∀ x ∈ t, x.contains addr = true → x ≠ r → x.prefix_length < r.prefix_length) :
    lookup t addr = some r.next_hop := by
  unfold lookup
  cases hb : best_match addr none t with
  | none =>
    have := (best_match_none addr t none hb).2 r hmem
    rw [hc] at this
    cases this
  | some m =>
    obtain ⟨h1, _, h3⟩ := best_match_some addr t none m hb
    rcases h1 with h1 | ⟨hm, hmc⟩
    · cases h1
    · by_cases hmr : m = r
      · subst hmr
        rfl
      · have h4 := hmax m hm hmc hmr
        have h5 := h3 r hmem hc
        omega

/-- Longest-prefix match on a table whose keys are distinct. -/
theorem lookup_spec (t : RoutingTable) (ht : distinct_keys t) (addr : Nat) :
    (∀ h : NextHop, lookup t addr = some h ↔
      ∃ r ∈ t, r.contains addr = true ∧ r.next_hop = h ∧
        ∀ x ∈ t, x.contains addr = true → x ≠ r → x.prefix_length < r.prefix_length) ∧
    (lookup t addr = none ↔ ∀ r ∈ t, r.contains addr = false) := by
  constructor
  · intro h
    constructor
    · intro hl
      unfold lookup at hl
      obtain ⟨r, hr, hh⟩ := Option.map_eq_some'.mp hl
      obtain ⟨h1, _, h3⟩ := best_match_some addr t none r hr
      rcases h1 with h1 | ⟨hmem, hc⟩
      · cases h1
      · refine ⟨r, hmem, hc, hh, ?_⟩
        intro x hx hxc hne
        rcases lt_or_eq_of_le (h3 x hx hxc) with hlt | heq
        · exact hlt
        · have hk := has_key_of_contains x r addr hxc hc heq
          rw [distinct_keys_ne t ht x r hx hmem hne] at hk
          cases hk
    · rintro ⟨r, hmem, hc, hh, hmax⟩
      rw [lookup_of_longest t addr r hmem hc hmax, hh]
  · constructor
    · intro hl
      unfold lookup at hl
      have hb : best_match addr none t = none := by
        cases hb : best_match addr none t with
        | none => rfl
        | some m => rw [hb] at hl; cases hl
      exact (best_match_none addr t none hb).2
    · intro hall
      unfold lookup
      rw [best_match_no_route addr t hall]
      rfl

/-- C4: longest-prefix match.  For every finite sequence of command records
applied to the initially empty routing table and every address, lookup
returns next hop h exactly when h is the next hop of an installed route that
contains the address and has a greater prefix_length than every other
installed route containing it, and returns no route exactly when no installed
route contains the address.  After installing 10.0.0.0/8 -> 198.51.100.1:5000
and 10.1.0.0/16 -> 198.51.100.2:5001, lookup of 10.1.2.3 is
198.51.100.2:5001; after deleting the /16 it is 198.51.100.1:5000. -/
theorem lookup_longest_prefix_match (cs : List command) (addr : Nat) :
    (∀ h : NextHop, lookup (apply_commands [] cs) addr = some h ↔
      ∃ r ∈ apply_commands [] cs, r.contains addr = true ∧ r.next_hop = h ∧
        ∀ x ∈ apply_commands [] cs, x.contains addr = true → x ≠ r →
          x.prefix_length < r.prefix_length) ∧
    (lookup (apply_commands [] cs) addr = none ↔
      ∀ r ∈ apply_commands [] cs, r.contains addr = false) ∧
    lookup
        (apply_commands []
          [ set_route_command (ipv4 10 0 0 0) 8 (ipv4 198 51 100 1) 5000,
            set_route_command (ipv4 10 1 0 0) 16 (ipv4 198 51 100 2) 5001 ])
        (ipv4 10 1 2 3) =
      some { address := ipv4 198 51 100 2, port := 5001 } ∧
    lookup
        (apply_commands []
          [ set_route_command (ipv4 10 0 0 0) 8 (ipv4 198 51 100 1) 5000,
            set_route_command (ipv4 10 1 0 0) 16 (ipv4 198 51 100 2) 5001,
            del_route_command (ipv4 10 1 0 0) 16 ])
        (ipv4 10 1 2 3) =
      some { address := ipv4 198 51 100 1, port := 5000 } := by
  have ht : distinct_keys (apply_commands [] cs) :=
    distinct_keys_apply_commands cs [] List.Pairwise.nil
  exact ⟨(lookup_spec _ ht addr).1, (lookup_spec _ ht addr).2, by decide, by decide⟩

/-! ## Routing table: SET_ROUTE and DEL_ROUTE -/

/-- What a valid SET_ROUTE record decodes to. -/
theorem decode_set_route (c : command) (hc : c.cmd = CMD_SET_ROUTE)
    (hlo : 0 ≤ c.dest_net_len) (hhi : c.dest_net_len ≤ 32) :
    decode c = Decoded.set_route
      { destination_network := normalize c.dest_net c.dest_net_len,
        prefix_length := c.dest_net_len,
        next_hop_address := c.next_hop_ip,
        next_hop_port := (to_uint16 c.next_hop_port).toNat } := by
  unfold decode
  rw [if_pos hc, if_pos ⟨hlo, hhi⟩]

/-- What a valid DEL_ROUTE record decodes to. -/
theorem decode_del_route (c : command) (hc : c.cmd = CMD_DEL_ROUTE)
    (hlo : 0 ≤ c.dest_net_len) (hhi : c.dest_net_len ≤ 32) :
    decode c = Decoded.del_route (normalize c.dest_net c.dest_net_len) c.dest_net_len := by
  unfold decode
  have h1 : ¬ c.cmd = CMD_SET_ROUTE := by
    rw [hc]
    decide
  rw [if_neg h1, if_pos hc, if_pos ⟨hlo, hhi⟩]

/-- A DEL_ROUTE record whose prefix length is out of range is a protocol
error. -/
theorem decode_del_route_out_of_range (c : command) (hc : c.cmd = CMD_DEL_ROUTE)
    (hr : ¬ (0 ≤ c.dest_net_len ∧ c.dest_net_len ≤ 32)) :
    decode c = Decoded.protocol_error := by
  unfold decode
  have h1 : ¬ c.cmd = CMD_SET_ROUTE := by
    rw [hc]
    decide
  rw [if_neg h1, if_pos hc, if_neg hr]

/-- What a STOP record decodes to. -/
theorem decode_stop (c : command) (hc : c.cmd = CMD_STOP) : decode c = Decoded.stop := by
  unfold decode
  have h1 : ¬ c.cmd = CMD_SET_ROUTE := by
    rw [hc]
    decide
  have h2 : ¬ c.cmd = CMD_DEL_ROUTE := by
    rw [hc]
    decide
  rw [if_neg h1, if_neg h2, if_pos hc]

/-- The table after a valid SET_ROUTE record: the routes under other keys, then
the new route. -/
theorem apply_set_route (t : RoutingTable) (c : command) (hc : c.cmd = CMD_SET_ROUTE)
    (hlo : 0 ≤ c.dest_net_len) (hhi : c.dest_net_len ≤ 32) :
    apply_command t c =
      t.filter (fun x => !x.has_key c.dest_net c.dest_net_len) ++
        [ { destination_network := normalize c.dest_net c.dest_net_len,
            prefix_length := c.dest_net_len,
            next_hop_address := c.next_hop_ip,
            next_hop_port := (to_uint16 c.next_hop_port).toNat } ] := by
  unfold apply_command
  rw [decode_set_route c hc hlo hhi]
  simp only [insert_or_replace, has_key_normalize]

/-- The route a SET_ROUTE record builds has the key of the record. -/
theorem built_route_has_key (net : Nat) (len : Int) (ip port : Nat) :
    Route.has_key
      { destination_network := normalize net len, prefix_length := len,
        next_hop_address := ip, next_hop_port := port } net len = true := by
  simp [Route.has_key, normalize_idem]

/-- C5, amended: for every routing table and every two SET_ROUTE commands with
identical (dest_net, dest_net_len) and a prefix length within 0..32, applying
the first and then the second leaves exactly one route for that key, and its
next hop (address and port) is the one from the second command; the routes
under other keys are unchanged. -/
theorem set_route_replaces_equal_key (t : RoutingTable) (c1 c2 : command)
    (h1 : c1.cmd = CMD_SET_ROUTE) (h2 : c2.cmd = CMD_SET_ROUTE)
    (hnet : c1.dest_net = c2.dest_net) (hlen : c1.dest_net_len = c2.dest_net_len)
    (hlo : 0 ≤ c2.dest_net_len) (hhi : c2.dest_net_len ≤ 32) :
    routes_for (apply_command (apply_command t c1) c2) c2.dest_net c2.dest_net_len =
      [ { destination_network := normalize c2.dest_net c2.dest_net_len,
          prefix_length := c2.dest_net_len,
          next_hop_address := c2.next_hop_ip,
          next_hop_port := (to_uint16 c2.next_hop_port).toNat } ] ∧
    (apply_command (apply_command t c1) c2).filter
        (fun x => !x.has_key c2.dest_net c2.dest_net_len) =
      t.filter (fun x => !x.has_key c2.dest_net c2.dest_net_len) := by
  rw [apply_set_route _ c2 h2 hlo hhi,
    apply_set_route t c1 h1 (hlen ▸ hlo) (hlen ▸ hhi), hnet, hlen]
  unfold routes_for
  simp only [List.filter_append, List.filter_filter, List.filter_cons, List.filter_nil,
    built_route_has_key]
  simp

/-- C5 at the table holding 10.0.0.0/8: two SET_ROUTE records for 10.1.0.0/16
leave one /16 route, to the second next hop, and the /8 route stays. -/
theorem set_route_replaces_equal_key_witness :
    routes_for
        (apply_command
          (apply_command
            [ { destination_network := ipv4 10 0 0 0, prefix_length := 8,
                next_hop_address := ipv4 198 51 100 1, next_hop_port := 5000 } ]
            (set_route_command (ipv4 10 1 0 0) 16 (ipv4 198 51 100 2) 5001))
          (set_route_command (ipv4 10 1 0 0) 16 (ipv4 198 51 100 3) 5002))
        (ipv4 10 1 0 0) 16 =
      [ { destination_network := ipv4 10 1 0 0, prefix_length := 16,
          next_hop_address := ipv4 198 51 100 3, next_hop_port := 5002 } ] :=
  (set_route_replaces_equal_key
    [ { destination_network := ipv4 10 0 0 0, prefix_length := 8,
        next_hop_address := ipv4 198 51 100 1, next_hop_port := 5000 } ]
    (set_route_command (ipv4 10 1 0 0) 16 (ipv4 198 51 100 2) 5001)
    (set_route_command (ipv4 10 1 0 0) 16 (ipv4 198 51 100 3) 5002)
    rfl rfl rfl rfl (by decide) (by decide)).1

/-- C5 as stated fails: two SET_ROUTE records with the identical key
(10.0.0.0, 33) and different next hops both fail validation, so after the
first and then the second no route is left for that key, where the claim
promises exactly one. -/
theorem set_route_out_of_range_leaves_no_route :
    ((set_route_command (ipv4 10 0 0 0) 33 (ipv4 198 51 100 1) 5000).cmd = CMD_SET_ROUTE ∧
      (set_route_command (ipv4 10 0 0 0) 33 (ipv4 198 51 100 2) 5001).cmd = CMD_SET_ROUTE ∧
      (set_route_command (ipv4 10 0 0 0) 33 (ipv4 198 51 100 1) 5000).next_hop_ip ≠
        (set_route_command (ipv4 10 0 0 0) 33 (ipv4 198 51 100 2) 5001).next_hop_ip) ∧
    routes_for
        (apply_command
          (apply_command [] (set_route_command (ipv4 10 0 0 0) 33 (ipv4 198 51 100 1) 5000))
          (set_route_command (ipv4 10 0 0 0) 33 (ipv4 198 51 100 2) 5001))
        (ipv4 10 0 0 0) 33 = [] ∧
    ¬ ∃ r : Route,
        routes_for
          (apply_command
            (apply_command []
              (set_route_command (ipv4 10 0 0 0) 33 (ipv4 198 51 100 1) 5000))
            (set_route_command (ipv4 10 0 0 0) 33 (ipv4 198 51 100 2) 5001))
          (ipv4 10 0 0 0) 33 = [r] := by
  have h : routes_for
        (apply_command
          (apply_command [] (set_route_command (ipv4 10 0 0 0) 33 (ipv4 198 51 100 1) 5000))
          (set_route_command (ipv4 10 0 0 0) 33 (ipv4 198 51 100 2) 5001))
        (ipv4 10 0 0 0) 33 = [] := by decide
  refine ⟨⟨rfl, rfl, by decide⟩, h, ?_⟩
  rintro ⟨r, hr⟩
  rw [h] at hr
  cases hr

/-- C6, amended: deleting an absent route is a no-op.  For every routing table
and every DEL_ROUTE command whose (dest_net, dest_net_len) is not the key of
any installed route (keys compared as the table compares them, ignoring the
bits of dest_net beyond dest_net_len), the table after the command equals the
table before it and the engine state is unchanged; when dest_net_len is
within 0..32 no error is raised: the engine handles the record without a
diagnostic and its only operation is the control read. -/
theorem del_route_absent_is_noop (ctx : Context) (st : State) (c : command)
    (hc : c.cmd = CMD_DEL_ROUTE)
    (habs : ∀ r ∈ st.routes, r.has_key c.dest_net c.dest_net_len = false) :
    apply_command st.routes c = st.routes ∧
    (handle ctx st (Event.ctl_readable (CtlRead.record c))).1 = st ∧
    (0 ≤ c.dest_net_len → c.dest_net_len ≤ 32 →
      handle ctx st (Event.ctl_readable (CtlRead.record c)) =
        (st, [Action.ctl_read ctx.ctl])) := by
  have hrem : remove st.routes (normalize c.dest_net c.dest_net_len) c.dest_net_len =
      st.routes := by
    unfold remove
    rw [List.filter_eq_self]
    intro r hr
    rw [has_key_normalize, habs r hr]
    rfl
  have hvalid : 0 ≤ c.dest_net_len → c.dest_net_len ≤ 32 →
      handle ctx st (Event.ctl_readable (CtlRead.record c)) =
        (st, [Action.ctl_read ctx.ctl]) := by
    intro hlo hhi
    show handle_ctl ctx st (CtlRead.record c) = _
    unfold handle_ctl
    simp only [decode_del_route c hc hlo hhi, hrem]
  by_cases hr : 0 ≤ c.dest_net_len ∧ c.dest_net_len ≤ 32
  · refine ⟨?_, ?_, hvalid⟩
    · unfold apply_command
      rw [decode_del_route c hc hr.1 hr.2]
      exact hrem
    · rw [hvalid hr.1 hr.2]
  · refine ⟨?_, ?_, hvalid⟩
    · unfold apply_command
      rw [decode_del_route_out_of_range c hc hr]
    · show (handle_ctl ctx st (CtlRead.record c)).1 = st
      unfold handle_ctl
      simp only [decode_del_route_out_of_range c hc hr]

/-- C6 at the table holding 10.0.0.0/8, with diagnostics on: DEL_ROUTE for
10.1.0.0/16 changes nothing and the control read is the only operation. -/
theorem del_route_absent_is_noop_witness :
    (del_route_command (ipv4 10 1 0 0) 16).cmd = CMD_DEL_ROUTE ∧
    Route.has_key
        { destination_network := ipv4 10 0 0 0, prefix_length := 8,
          next_hop_address := ipv4 198 51 100 1, next_hop_port := 5000 }
        (ipv4 10 1 0 0) 16 = false ∧
    apply_command
        [ { destination_network := ipv4 10 0 0 0, prefix_length := 8,
            next_hop_address := ipv4 198 51 100 1, next_hop_port := 5000 } ]
        (del_route_command (ipv4 10 1 0 0) 16) =
      [ { destination_network := ipv4 10 0 0 0, prefix_length := 8,
          next_hop_address := ipv4 198 51 100 1, next_hop_port := 5000 } ] ∧
    handle
        { tun := 3, sock := 4, ctl := 5, tun_ip := ipv4 10 0 0 1, tun_mtu := 1472,
          log_errors := 1 }
        { routes :=
            [ { destination_network := ipv4 10 0 0 0, prefix_length := 8,
                next_hop_address := ipv4 198 51 100 1, next_hop_port := 5000 } ],
          exit_flag := false }
        (Event.ctl_readable (CtlRead.record (del_route_command (ipv4 10 1 0 0) 16))) =
      ({ routes :=
            [ { destination_network := ipv4 10 0 0 0, prefix_length := 8,
                next_hop_address := ipv4 198 51 100 1, next_hop_port := 5000 } ],
          exit_flag := false },
        [Action.ctl_read 5]) :=
  ⟨rfl, by decide,
    (del_route_absent_is_noop
      { tun := 3, sock := 4, ctl := 5, tun_ip := ipv4 10 0 0 1, tun_mtu := 1472,
        log_errors := 1 }
      { routes :=
          [ { destination_network := ipv4 10 0 0 0, prefix_length := 8,
              next_hop_address := ipv4 198 51 100 1, next_hop_port := 5000 } ],
        exit_flag := false }
      (del_route_command (ipv4 10 1 0 0) 16) rfl (by decide)).1,
    (del_route_absent_is_noop
      { tun := 3, sock := 4, ctl := 5, tun_ip := ipv4 10 0 0 1, tun_mtu := 1472,
        log_errors := 1 }
      { routes :=
          [ { destination_network := ipv4 10 0 0 0, prefix_length := 8,
              next_hop_address := ipv4 198 51 100 1, next_hop_port := 5000 } ],
        exit_flag := false }
      (del_route_command (ipv4 10 1 0 0) 16) rfl (by decide)).2.2 (by decide) (by decide)⟩

/-- C6 as stated fails: with diagnostics on and the table holding 10.0.0.0/8,
the DEL_ROUTE record for (10.1.0.0, 33) has the key of no installed route,
yet its out-of-range prefix length is a protocol error: the engine emits a
diagnostic after the control read, where the claim promises that no error is
raised.  The table is left as it was. -/
theorem del_route_out_of_range_raises_error :
    ((del_route_command (ipv4 10 1 0 0) 33).cmd = CMD_DEL_ROUTE ∧
      Route.has_key
          { destination_network := ipv4 10 0 0 0, prefix_length := 8,
            next_hop_address := ipv4 198 51 100 1, next_hop_port := 5000 }
          (ipv4 10 1 0 0) 33 = false) ∧
    handle
        { tun := 3, sock := 4, ctl := 5, tun_ip := ipv4 10 0 0 1, tun_mtu := 1472,
          log_errors := 1 }
        { routes :=
            [ { destination_network := ipv4 10 0 0 0, prefix_length := 8,
                next_hop_address := ipv4 198 51 100 1, next_hop_port := 5000 } ],
          exit_flag := false }
        (Event.ctl_readable (CtlRead.record (del_route_command (ipv4 10 1 0 0) 33))) =
      ({ routes :=
            [ { destination_network := ipv4 10 0 0 0, prefix_length := 8,
                next_hop_address := ipv4 198 51 100 1, next_hop_port := 5000 } ],
          exit_flag := false },
        [Action.ctl_read 5, Action.diagnostic]) ∧
    Action.diagnostic ∈
      (handle
        { tun := 3, sock := 4, ctl := 5, tun_ip := ipv4 10 0 0 1, tun_mtu := 1472,
          log_errors := 1 }
        { routes :=
            [ { destination_network := ipv4 10 0 0 0, prefix_length := 8,
                next_hop_address := ipv4 198 51 100 1, next_hop_port := 5000 } ],
          exit_flag := false }
        (Event.ctl_readable (CtlRead.record (del_route_command (ipv4 10 1 0 0) 33)))).2 := by
  refine ⟨⟨rfl, by decide⟩, by decide, by decide⟩

/-! ## Forwarding engine: egress and shutdown -/

/-- Once the shutdown signal is set the loop handles nothing more. -/
theorem engine_loop_stopped (ctx : Context) (st : State) (es : List Event)
    (h : st.exit_flag = true) :
    engine_loop ctx st es = { state := st, trace := [], returned := true } := by
  cases es with
  | nil => simp [engine_loop, h]
  | cons e es => simp [engine_loop, h]

/-- While the shutdown signal is clear the loop handles the next event and goes
on from the state that leaves. -/
theorem engine_loop_running (ctx : Context) (st : State) (e : Event) (es : List Event)
    (h : st.exit_flag = false) :
    engine_loop ctx st (e :: es) =
      { state := (engine_loop ctx (handle ctx st e).1 es).state,
        trace := (handle ctx st e).2 ++ (engine_loop ctx (handle ctx st e).1 es).trace,
        returned := (engine_loop ctx (handle ctx st e).1 es).returned } := by
  rw [engine_loop]
  simp [h]

/-- The loop has returned exactly when the shutdown signal is set. -/
theorem engine_loop_returned (ctx : Context) (es : List Event) :
    ∀ st, (engine_loop ctx st es).returned = (engine_loop ctx st es).state.exit_flag := by
  induction es with
  | nil => intro st; rfl
  | cons e es ih =>
    intro st
    by_cases h : st.exit_flag = true
    · rw [engine_loop_stopped ctx st _ h]
      exact h.symm
    · have hf : st.exit_flag = false := by simpa using h
      rw [engine_loop_running ctx st e es hf]
      exact ih _

/-- A run over two batches of events: the second batch is handled from the
state the first one leaves, unless the loop has returned by then. -/
theorem engine_loop_append (ctx : Context) (es1 es2 : List Event) :
    ∀ st, engine_loop ctx st (es1 ++ es2) =
      if (engine_loop ctx st es1).returned = true then engine_loop ctx st es1
      else
        { state := (engine_loop ctx (engine_loop ctx st es1).state es2).state,
          trace := (engine_loop ctx st es1).trace ++
            (engine_loop ctx (engine_loop ctx st es1).state es2).trace,
          returned := (engine_loop ctx (engine_loop ctx st es1).state es2).returned } := by
  induction es1 with
  | nil =>
    intro st
    by_cases h : st.exit_flag = true
    · rw [List.nil_append, engine_loop_stopped ctx st es2 h]
      simp [engine_loop, h]
    · simp [engine_loop, h]
  | cons e es ih =>
    intro st
    by_cases h : st.exit_flag = true
    · rw [engine_loop_stopped ctx st _ h, engine_loop_stopped ctx st _ h]
      simp
    · have hf : st.exit_flag = false := by simpa using h
      rw [List.cons_append, engine_loop_running ctx st e _ hf,
        engine_loop_running ctx st e _ hf, ih]
      split <;> simp_all

/-- Handling a shutdown event sets the shutdown signal, leaves the routing
table alone and issues the control read only. -/
theorem handle_shutdown (ctx : Context) (st : State) (e : Event)
    (he : e.is_shutdown = true) :
    handle ctx st e = ({ st with exit_flag := true }, [Action.ctl_read ctx.ctl]) := by
  cases e with
  | tun_readable pkt => cases he
  | udp_readable payload => cases he
  | ctl_readable r =>
    cases r with
    | record c =>
      have hc : c.cmd = CMD_STOP := by simpa [Event.is_shutdown] using he
      show handle_ctl ctx st (CtlRead.record c) = _
      unfold handle_ctl
      simp only [decode_stop c hc]
    | short_read n => cases he
    | closed => rfl
    | failed => cases he

/-- One more event after a batch that left the loop running: it is handled
from the state the batch leaves. -/
theorem engine_loop_snoc (ctx : Context) (st : State) (earlier : List Event) (e : Event)
    (hrun : (engine_loop ctx st earlier).returned = false) :
    engine_loop ctx st (earlier ++ [e]) =
      { state := (handle ctx (engine_loop ctx st earlier).state e).1,
        trace := (engine_loop ctx st earlier).trace ++
          (handle ctx (engine_loop ctx st earlier).state e).2,
        returned := (handle ctx (engine_loop ctx st earlier).state e).1.exit_flag } := by
  have hflag : (engine_loop ctx st earlier).state.exit_flag = false := by
    rw [← engine_loop_returned]
    exact hrun
  rw [engine_loop_append, hrun, engine_loop_running _ _ _ _ hflag]
  simp [engine_loop]

/-- A shutdown event, and whatever follows it, after a batch of events: the
run is the run over the batch, plus the control read that observes the
shutdown if the loop was still running. -/
theorem engine_loop_shutdown (ctx : Context) (st : State) (earlier later : List Event)
    (e : Event) (he : e.is_shutdown = true) :
    engine_loop ctx st (earlier ++ e :: later) =
      { state := { (engine_loop ctx st earlier).state with exit_flag := true },
        trace := (engine_loop ctx st earlier).trace ++
          (if (engine_loop ctx st earlier).returned = true then []
            else [Action.ctl_read ctx.ctl]),
        returned := true } := by
  by_cases hrun : (engine_loop ctx st earlier).returned = true
  · have hflag : (engine_loop ctx st earlier).state.exit_flag = true := by
      rw [← engine_loop_returned]
      exact hrun
    rw [engine_loop_append, if_pos hrun, if_pos hrun, List.append_nil]
    cases hr : engine_loop ctx st earlier with
    | mk s tr ret =>
      rw [hr] at hrun hflag
      simp only at hrun hflag
      subst hrun
      cases s with
      | mk routes flag =>
        simp only at hflag
        subst hflag
        rfl
  · have hflag : (engine_loop ctx st earlier).state.exit_flag = false := by
      rw [← engine_loop_returned]
      simpa using hrun
    rw [engine_loop_append, if_neg hrun, if_neg hrun,
      engine_loop_running _ _ _ _ hflag, handle_shutdown _ _ _ he,
      engine_loop_stopped _ _ _ rfl]
    simp

/-- C7: egress forwarding.  For every packet read from the virtual interface
while the engine runs, if the destination address in its header matches an
installed route (the longest-prefix match among the installed routes),
run_proxy reads the packet and issues exactly one UDP send on the socket,
addressed to the next_hop_address and next_hop_port of that route, whose
payload is the packet as read; the engine state, the routing table included,
is not modified. -/
theorem egress_forwarding (tun sock ctl : Int) (tun_ip tun_mtu : Nat) (log_errors : Int)
    (earlier : List Event) (pkt : List Byte) (dst : Nat) (r : Route)
    (hrun : (run_proxy tun sock ctl tun_ip tun_mtu log_errors earlier).returned = false)
    (hdst : destination pkt = some dst)
    (hmem : r ∈ (run_proxy tun sock ctl tun_ip tun_mtu log_errors earlier).state.routes)
    (hmatch : r.contains dst = true)
    (hbest : ∀ x ∈ (run_proxy tun sock ctl tun_ip tun_mtu log_errors earlier).state.routes,
      x.contains dst = true → x ≠ r → x.prefix_length < r.prefix_length) :
    (run_proxy tun sock ctl tun_ip tun_mtu log_errors
        (earlier ++ [Event.tun_readable (some pkt)])).trace =
      (run_proxy tun sock ctl tun_ip tun_mtu log_errors earlier).trace ++
        [ Action.tun_read tun,
          Action.udp_send sock
            { address := r.next_hop_address, port := r.next_hop_port } pkt ] ∧
    (run_proxy tun sock ctl tun_ip tun_mtu log_errors
        (earlier ++ [Event.tun_readable (some pkt)])).state =
      (run_proxy tun sock ctl tun_ip tun_mtu log_errors earlier).state := by
  unfold run_proxy at hrun hmem hbest ⊢
  have hl := lookup_of_longest _ dst r hmem hmatch hbest
  rw [engine_loop_snoc _ _ _ _ hrun]
  simp only [handle, handle_tun, hdst, hl]
  exact ⟨rfl, trivial⟩

/-- C7 on a run that installs 10.0.0.0/8 -> 198.51.100.1:5000 and then reads a
20-octet packet for 10.1.2.3: the packet is sent to 198.51.100.1:5000. -/
theorem egress_forwarding_witness :
    destination [69, 0, 0, 20, 0, 0, 0, 0, 64, 17, 0, 0, 10, 0, 0, 1, 10, 1, 2, 3] =
      some (ipv4 10 1 2 3) ∧
    (run_proxy 3 4 5 (ipv4 10 0 0 1) 1472 0
        ([Event.ctl_readable (CtlRead.record
            (set_route_command (ipv4 10 0 0 0) 8 (ipv4 198 51 100 1) 5000))] ++
          [Event.tun_readable
            (some [69, 0, 0, 20, 0, 0, 0, 0, 64, 17, 0, 0, 10, 0, 0, 1, 10, 1, 2, 3])])).trace =
      (run_proxy 3 4 5 (ipv4 10 0 0 1) 1472 0
        [Event.ctl_readable (CtlRead.record
          (set_route_command (ipv4 10 0 0 0) 8 (ipv4 198 51 100 1) 5000))]).trace ++
        [ Action.tun_read 3,
          Action.udp_send 4 { address := ipv4 198 51 100 1, port := 5000 }
            [69, 0, 0, 20, 0, 0, 0, 0, 64, 17, 0, 0, 10, 0, 0, 1, 10, 1, 2, 3] ] :=
  ⟨by decide,
    (egress_forwarding 3 4 5 (ipv4 10 0 0 1) 1472 0
    [Event.ctl_readable (CtlRead.record
      (set_route_command (ipv4 10 0 0 0) 8 (ipv4 198 51 100 1) 5000))]
    [69, 0, 0, 20, 0, 0, 0, 0, 64, 17, 0, 0, 10, 0, 0, 1, 10, 1, 2, 3]
    (ipv4 10 1 2 3)
    { destination_network := ipv4 10 0 0 0, prefix_length := 8,
      next_hop_address := ipv4 198 51 100 1, next_hop_port := 5000 }
    (by decide) (by decide) (by decide) (by decide) (by decide)).1⟩

/-- C8: shutdown.  Once a STOP command has been decoded or the control channel
has been closed, the engine handles nothing more: whatever events follow, the
run is the run up to and including the shutdown event, run_proxy returns, the
routing table is the one the earlier events left, and the operations issued
are those of the earlier events plus the one control read that observed the
shutdown, so no virtual-interface read, UDP send, UDP receive or table
mutation occurs afterwards. -/
theorem shutdown_ends_run (tun sock ctl : Int) (tun_ip tun_mtu : Nat) (log_errors : Int)
    (earlier later : List Event) (e : Event) (he : e.is_shutdown = true) :
    run_proxy tun sock ctl tun_ip tun_mtu log_errors (earlier ++ e :: later) =
      run_proxy tun sock ctl tun_ip tun_mtu log_errors (earlier ++ [e]) ∧
    (run_proxy tun sock ctl tun_ip tun_mtu log_errors (earlier ++ e :: later)).returned =
      true ∧
    (run_proxy tun sock ctl tun_ip tun_mtu log_errors (earlier ++ e :: later)).state.routes =
      (run_proxy tun sock ctl tun_ip tun_mtu log_errors earlier).state.routes ∧
    (run_proxy tun sock ctl tun_ip tun_mtu log_errors (earlier ++ e :: later)).trace =
      (run_proxy tun sock ctl tun_ip tun_mtu log_errors earlier).trace ++
        (if (run_proxy tun sock ctl tun_ip tun_mtu log_errors earlier).returned = true
          then [] else [Action.ctl_read ctl]) := by
  unfold run_proxy
  rw [engine_loop_shutdown _ _ earlier later e he, engine_loop_shutdown _ _ earlier [] e he]
  exact ⟨rfl, rfl, rfl, rfl⟩

/-- C8 on a run that installs a route, decodes STOP and is then offered a
packet for that route: the packet is never read and nothing is sent. -/
theorem shutdown_ends_run_witness :
    (run_proxy 3 4 5 (ipv4 10 0 0 1) 1472 0
        ([Event.ctl_readable (CtlRead.record
            (set_route_command (ipv4 10 0 0 0) 8 (ipv4 198 51 100 1) 5000))] ++
          Event.ctl_readable (CtlRead.record
            { cmd := CMD_STOP, dest_net := 0, dest_net_len := 0, next_hop_ip := 0,
              next_hop_port := 0 }) ::
          [Event.tun_readable
            (some [69, 0, 0, 20, 0, 0, 0, 0, 64, 17, 0, 0, 10, 0, 0, 1, 10, 1, 2, 3])])).returned =
      true :=
  (shutdown_ends_run 3 4 5 (ipv4 10 0 0 1) 1472 0
    [Event.ctl_readable (CtlRead.record
      (set_route_command (ipv4 10 0 0 0) 8 (ipv4 198 51 100 1) 5000))]
    [Event.tun_readable
      (some [69, 0, 0, 20, 0, 0, 0, 0, 64, 17, 0, 0, 10, 0, 0, 1, 10, 1, 2, 3])]
    (Event.ctl_readable (CtlRead.record
      { cmd := CMD_STOP, dest_net := 0, dest_net_len := 0, next_hop_ip := 0,
        next_hop_port := 0 }))
    rfl).2.1

end Proxy
